import Mathlib

/-!
The lunr search store (`_site/assets/js/lunr/lunr-store.js`)

The file binds the global `store` to an array literal of six object literals.
This development embeds

* the file itself, line by line (`fileLines`, `fileText`, `storeText`);
* the JavaScript value the literal denotes (`store`), as a tree of `JVal`;
* a reader for the JSON grammar of RFC 8259 (`parseJSON`), against which the
  text of the literal is checked;

and settles the properties of the entries on the embedded value.
-/

namespace LunrStore

/-! ## Values -/

/-- The values a JavaScript data literal (equivalently, a JSON text) denotes.
A number is kept as the digits it was written with. -/
inductive JVal where
  | null
  | bool (b : Bool)
  | num (lit : String)
  | str (s : String)
  | arr (items : List JVal)
  | obj (members : List (String × JVal))

/-! ## The source file -/

/-- The 37 lines of the file, verbatim. -/
def fileLines : List String :=
  [ "var store = [\x7b"
  , "        \"title\": \"Generating SDKs from a Swagger Spec for Multiple Languages\","
  , "        \"excerpt\":\"Outline Introduction Why would we do this? To make it easier for consumers of your API to get started To support polyglot development What we’re going to cover How to set up a gradle file to generate Java and Ruby SDKs Creating wrapper code in Java and Ruby Writing a...\",\"categories\": [],"
  , "        \"tags\": [],"
  , "        \"url\": \"/multiple-language-codegen/\","
  , "        \"teaser\": null"
  , "      \x7d,\x7b"
  , "        \"title\": \"Defining a New API with Swagger\","
  , "        \"excerpt\":\"An API is, fundamentally, a contract between two machines to allow them to communicate with each other. Language, library, protocol: anything is on the table as long as both parties know what’s going on. With that in mind, I’ve found that often it’s best to define the API contract first,...\",\"categories\": [],"
  , "        \"tags\": [],"
  , "        \"url\": \"/swagger-documentation/\","
  , "        \"teaser\": null"
  , "      \x7d,\x7b"
  , "        \"title\": \"Getting Started with JSON Schema\","
  , "        \"excerpt\":\"Getting Started with JSON Schema When I use API Blueprint to define an API contract, I’ve found the JSON Schema tends to be more expressive than the MSON format more deeply embedded into the spec. What follows is a quick tutorial outlining how to define a complex JSON payload using...\",\"categories\": [],"
  , "        \"tags\": [],"
  , "        \"url\": \"/getting-start-with-json-schema/\","
  , "        \"teaser\": null"
  , "      \x7d,\x7b"
  , "        \"title\": \"Setting Up a Development Environment for Go\","
  , "        \"excerpt\":\"Setting up a Go Development Environment No matter what you do or where you work, new technologies are constantly coming along that change (for better or worse) what you do. Languages, frameworks, SRE stuff, CI pipelines, it seems almost endless. Another equal and opposite fact of life is resistance to...\",\"categories\": [],"
  , "        \"tags\": [],"
  , "        \"url\": \"/go-dev-environment-with-vagrant/\","
  , "        \"teaser\": null"
  , "      \x7d,\x7b"
  , "        \"title\": \"Making a simple REST API with Go and Gin\","
  , "        \"excerpt\":\"Creating an API with Go and Gonic/Gin In a previous post, we documented the contract of an example API with Swagger. Now, let’s actually create it. For this, we’ll be using Go with the Gin framework. This is just a simple example API and probably not something you would ever...\",\"categories\": [],"
  , "        \"tags\": [],"
  , "        \"url\": \"/go-gin-rest-api/\","
  , "        \"teaser\": null"
  , "      \x7d,\x7b"
  , "        \"title\": \"Test Driven Development with Go\","
  , "        \"excerpt\":\"Test driven development with Go Background What I’m working on for this project is an API sand boxing tool that can read a Swagger spec and then serve mock responses. API Blueprint has something similar (called Drakov) that is super useful, but I haven’t been able to find something comparable...\",\"categories\": [],"
  , "        \"tags\": [],"
  , "        \"url\": \"/test-driven-development-in-go/\","
  , "        \"teaser\": null"
  , "      \x7d]" ]


/-- The file as text: its 37 lines, separated by line feeds (the last line is
not terminated). -/
def fileText : String := "\n".intercalate fileLines

/-- The declaration that precedes the array literal on line 1. -/
def declHead : String := "var store = "

/-- The text bound to `store`: the file from the opening `[` on line 1 to the
closing `]` on line 37. -/
def storeText : String := fileText.drop declHead.length

/-! ## The value of `store` -/

/-- The value the array literal of lines 1 to 37 denotes: six objects, each
with its members in the order the file writes them. -/
def store : JVal :=
  .arr [
    .obj
      [ ("title", .str "Generating SDKs from a Swagger Spec for Multiple Languages")
      , ("excerpt", .str "Outline Introduction Why would we do this? To make it easier for consumers of your API to get started To support polyglot development What we’re going to cover How to set up a gradle file to generate Java and Ruby SDKs Creating wrapper code in Java and Ruby Writing a...")
      , ("categories", .arr [])
      , ("tags", .arr [])
      , ("url", .str "/multiple-language-codegen/")
      , ("teaser", .null) ],
    .obj
      [ ("title", .str "Defining a New API with Swagger")
      , ("excerpt", .str "An API is, fundamentally, a contract between two machines to allow them to communicate with each other. Language, library, protocol: anything is on the table as long as both parties know what’s going on. With that in mind, I’ve found that often it’s best to define the API contract first,...")
      , ("categories", .arr [])
      , ("tags", .arr [])
      , ("url", .str "/swagger-documentation/")
      , ("teaser", .null) ],
    .obj
      [ ("title", .str "Getting Started with JSON Schema")
      , ("excerpt", .str "Getting Started with JSON Schema When I use API Blueprint to define an API contract, I’ve found the JSON Schema tends to be more expressive than the MSON format more deeply embedded into the spec. What follows is a quick tutorial outlining how to define a complex JSON payload using...")
      , ("categories", .arr [])
      , ("tags", .arr [])
      , ("url", .str "/getting-start-with-json-schema/")
      , ("teaser", .null) ],
    .obj
      [ ("title", .str "Setting Up a Development Environment for Go")
      , ("excerpt", .str "Setting up a Go Development Environment No matter what you do or where you work, new technologies are constantly coming along that change (for better or worse) what you do. Languages, frameworks, SRE stuff, CI pipelines, it seems almost endless. Another equal and opposite fact of life is resistance to...")
      , ("categories", .arr [])
      , ("tags", .arr [])
      , ("url", .str "/go-dev-environment-with-vagrant/")
      , ("teaser", .null) ],
    .obj
      [ ("title", .str "Making a simple REST API with Go and Gin")
      , ("excerpt", .str "Creating an API with Go and Gonic/Gin In a previous post, we documented the contract of an example API with Swagger. Now, let’s actually create it. For this, we’ll be using Go with the Gin framework. This is just a simple example API and probably not something you would ever...")
      , ("categories", .arr [])
      , ("tags", .arr [])
      , ("url", .str "/go-gin-rest-api/")
      , ("teaser", .null) ],
    .obj
      [ ("title", .str "Test Driven Development with Go")
      , ("excerpt", .str "Test driven development with Go Background What I’m working on for this project is an API sand boxing tool that can read a Swagger spec and then serve mock responses. API Blueprint has something similar (called Drakov) that is super useful, but I haven’t been able to find something comparable...")
      , ("categories", .arr [])
      , ("tags", .arr [])
      , ("url", .str "/test-driven-development-in-go/")
      , ("teaser", .null) ] ]

/-! ## Reading the value -/

/-- The elements of an array (`store[i]`); anything else has none. -/
def elems : JVal → List JVal
  | .arr items => items
  | _ => []

/-- The own property names of an object, in the order written. -/
def keys : JVal → List String
  | .obj members => members.map Prod.fst
  | _ => []

/-- Property access `e[k]`. When a literal writes a name twice the later
member is the one kept, so the members are searched from the end. -/
def field (k : String) : JVal → Option JVal
  | .obj members => members.reverse.lookup k
  | _ => none

/-- Property access that succeeds only on a string value. -/
def strField (k : String) (e : JVal) : Option String :=
  match field k e with
  | some (.str s) => some s
  | _ => none

def isObject : JVal → Bool
  | .obj _ => true
  | _ => false

def isText : JVal → Bool
  | .str _ => true
  | _ => false

def isNull : JVal → Bool
  | .null => true
  | _ => false

/-- A (possibly empty) sequence of text labels. -/
def isTextSeq : JVal → Bool
  | .arr items => items.all isText
  | _ => false

def isEmptySeq : JVal → Bool
  | .arr [] => true
  | _ => false

/-- Text, or absent (`null`). -/
def isOptText : JVal → Bool
  | .str _ => true
  | .null => true
  | _ => false

/-- The six field names of a SearchEntry record. -/
def searchEntryFields : List String :=
  ["title", "excerpt", "categories", "tags", "url", "teaser"]

/-! ## The JSON grammar (RFC 8259)

`parseJSON` reads a JSON text: `ws value ws`. Each reader takes the characters
still to be read and gives the value read with the characters after it, or
`none` where the grammar admits no reading. -/

/-- Insignificant whitespace: space, horizontal tab, line feed, carriage return. -/
def isWs (c : Char) : Bool :=
  c = ' ' || c = '\t' || c = '\n' || c = '\r'

def skipWs : List Char → List Char
  | [] => []
  | c :: cs => if isWs c then skipWs cs else c :: cs

/-- Reads the literal name `lit` (`null`, `true`, `false`) off the front. -/
def readLit (lit : List Char) (cs : List Char) : Option (List Char) :=
  if lit.isPrefixOf cs then some (cs.drop lit.length) else none

/-- The value of a hexadecimal digit. -/
def hexVal (c : Char) : Option Nat :=
  if '0' ≤ c ∧ c ≤ '9' then some (c.toNat - '0'.toNat)
  else if 'a' ≤ c ∧ c ≤ 'f' then some (c.toNat - 'a'.toNat + 10)
  else if 'A' ≤ c ∧ c ≤ 'F' then some (c.toNat - 'A'.toNat + 10)
  else none

/-- The code unit written by the four hexadecimal digits of a `\u` escape. -/
def hex4 (a b c d : Char) : Option Nat :=
  match hexVal a, hexVal b, hexVal c, hexVal d with
  | some w, some x, some y, some z => some (((w * 16 + x) * 16 + y) * 16 + z)
  | _, _, _, _ => none

/-- The character a two-character escape stands for. -/
def escChar (c : Char) : Option Char :=
  if c = '"' then some '"'
  else if c = '\\' then some '\\'
  else if c = '/' then some '/'
  else if c = 'b' then some (Char.ofNat 8)
  else if c = 'f' then some (Char.ofNat 12)
  else if c = 'n' then some '\n'
  else if c = 'r' then some '\r'
  else if c = 't' then some '\t'
  else none

/-- The characters of a string after its opening quotation mark, up to and
including the closing one. `acc` holds the characters read so far, last
first. A control character (below U+0020) may not appear unescaped. A `\u`
escape that writes a surrogate code unit is read only as half of a pair;
a lone one is refused, since it is no character. -/
def readChars : Nat → List Char → List Char → Option (String × List Char)
  | 0, _, _ => none
  | _ + 1, [], _ => none
  | n + 1, c :: cs, acc =>
    if c = '"' then some (String.mk acc.reverse, cs)
    else if c = '\\' then
      match cs with
      | 'u' :: h1 :: h2 :: h3 :: h4 :: rest =>
        match hex4 h1 h2 h3 h4 with
        | none => none
        | some u =>
          if 0xD800 ≤ u ∧ u < 0xDC00 then
            match rest with
            | '\\' :: 'u' :: l1 :: l2 :: l3 :: l4 :: rest2 =>
              match hex4 l1 l2 l3 l4 with
              | none => none
              | some v =>
                if 0xDC00 ≤ v ∧ v < 0xE000 then
                  readChars n rest2
                    (Char.ofNat (0x10000 + (u - 0xD800) * 0x400 + (v - 0xDC00)) :: acc)
                else none
            | _ => none
          else if 0xDC00 ≤ u ∧ u < 0xE000 then none
          else readChars n rest (Char.ofNat u :: acc)
      | e :: rest =>
        match escChar e with
        | some x => readChars n rest (x :: acc)
        | none => none
      | [] => none
    else if c.toNat < 0x20 then none
    else readChars n cs (c :: acc)

/-- The longest run of decimal digits at the front, and what follows it. -/
def readDigits : List Char → List Char × List Char
  | [] => ([], [])
  | c :: cs =>
    if c.isDigit then
      let r := readDigits cs
      (c :: r.1, r.2)
    else ([], c :: cs)

/-- The grammar `int = zero / ( digit1-9 *DIGIT )`. -/
def readInt (cs : List Char) : Option (List Char × List Char) :=
  match cs with
  | [] => none
  | c :: rest =>
    if c = '0' then some (['0'], rest)
    else if c.isDigit then some (readDigits (c :: rest))
    else none

/-- The grammar `[ frac ]`, `frac = decimal-point 1*DIGIT`. -/
def readFrac (cs : List Char) : Option (List Char × List Char) :=
  match cs with
  | '.' :: rest =>
    match readDigits rest with
    | ([], _) => none
    | (ds, rest2) => some ('.' :: ds, rest2)
  | _ => some ([], cs)

/-- The grammar `[ exp ]`, `exp = e [ minus / plus ] 1*DIGIT`. -/
def readExp (cs : List Char) : Option (List Char × List Char) :=
  match cs with
  | [] => some ([], [])
  | e :: rest =>
    if e = 'e' ∨ e = 'E' then
      let (sign, rest1) :=
        match rest with
        | s :: rest0 => if s = '-' ∨ s = '+' then ([s], rest0) else ([], rest)
        | [] => ([], rest)
      match readDigits rest1 with
      | ([], _) => none
      | (ds, rest2) => some (e :: sign ++ ds, rest2)
    else some ([], cs)

/-- The grammar `number = [ minus ] int [ frac ] [ exp ]`. -/
def readNumber (cs : List Char) : Option (JVal × List Char) :=
  let (sign, rest) :=
    match cs with
    | c :: rest0 => if c = '-' then (['-'], rest0) else ([], cs)
    | [] => ([], cs)
  match readInt rest with
  | none => none
  | some (i, rest1) =>
    match readFrac rest1 with
    | none => none
    | some (f, rest2) =>
      match readExp rest2 with
      | none => none
      | some (x, rest3) => some (.num (String.mk (sign ++ i ++ f ++ x)), rest3)

mutual

/-- The grammar `value`. The first argument bounds the depth of the reading;
the length of the text always suffices. -/
def readValue : Nat → List Char → Option (JVal × List Char)
  | 0, _ => none
  | _ + 1, [] => none
  | n + 1, c :: cs =>
    if c = '[' then
      match skipWs cs with
      | [] => none
      | d :: ds => if d = ']' then some (.arr [], ds) else readElems n (d :: ds) []
    else if c = '{' then
      match skipWs cs with
      | [] => none
      | d :: ds => if d = '}' then some (.obj [], ds) else readMembers n (d :: ds) []
    else if c = '"' then
      match readChars (cs.length + 1) cs [] with
      | some (s, rest) => some (.str s, rest)
      | none => none
    else if c = 'n' then (readLit "null".toList (c :: cs)).map fun rest => (.null, rest)
    else if c = 't' then (readLit "true".toList (c :: cs)).map fun rest => (.bool true, rest)
    else if c = 'f' then (readLit "false".toList (c :: cs)).map fun rest => (.bool false, rest)
    else readNumber (c :: cs)

/-- The grammar `value *( value-separator value ) end-array`, whitespace
before the first value already skipped. `acc` holds the values read so far,
last first. -/
def readElems : Nat → List Char → List JVal → Option (JVal × List Char)
  | 0, _, _ => none
  | n + 1, cs, acc =>
    match readValue n cs with
    | none => none
    | some (v, rest) =>
      match skipWs rest with
      | [] => none
      | d :: ds =>
        if d = ',' then readElems n (skipWs ds) (v :: acc)
        else if d = ']' then some (.arr (v :: acc).reverse, ds)
        else none

/-- The grammar `member *( value-separator member ) end-object`, with
`member = string name-separator value`, whitespace before the first member
already skipped. -/
def readMembers : Nat → List Char → List (String × JVal) → Option (JVal × List Char)
  | 0, _, _ => none
  | _ + 1, [], _ => none
  | n + 1, q :: cs, acc =>
    if q = '"' then
      match readChars (cs.length + 1) cs [] with
      | none => none
      | some (k, rest) =>
        match skipWs rest with
        | [] => none
        | s :: rest1 =>
          if s = ':' then
            match readValue n (skipWs rest1) with
            | none => none
            | some (v, rest2) =>
              match skipWs rest2 with
              | [] => none
              | d :: ds =>
                if d = ',' then readMembers n (skipWs ds) ((k, v) :: acc)
                else if d = '}' then some (.obj ((k, v) :: acc).reverse, ds)
                else none
          else none
    else none

end

/-- The grammar `JSON-text = ws value ws`: the whole text is one value. -/
def parseJSON (text : String) : Option JVal :=
  match readValue text.length (skipWs text.toList) with
  | some (v, rest) => if skipWs rest = [] then some v else none
  | none => none

/-! ## Comparing values -/

mutual

/-- Structural equality of two values, as a computation. -/
def JVal.same : JVal → JVal → Bool
  | .null, .null => true
  | .bool a, .bool b => a == b
  | .num a, .num b => a == b
  | .str a, .str b => a == b
  | .arr a, .arr b => sameItems a b
  | .obj a, .obj b => sameMembers a b
  | _, _ => false

def sameItems : List JVal → List JVal → Bool
  | [], [] => true
  | x :: xs, y :: ys => JVal.same x y && sameItems xs ys
  | _, _ => false

def sameMembers : List (String × JVal) → List (String × JVal) → Bool
  | [], [] => true
  | (j, x) :: xs, (k, y) :: ys => j == k && JVal.same x y && sameMembers xs ys
  | _, _ => false

end

/-- The outcome of a reading is the value `v`. -/
def readsAs (r : Option JVal) (v : JVal) : Bool :=
  match r with
  | some w => JVal.same w v
  | none => false

/-! ## Reading the store -/

/-- Indexing `store[i]`; out of range there is no entry, rendered as `null`. -/
def storeAt (i : Nat) : JVal := (elems store).getD i .null

/-- The characters a slug is made of: lowercase ASCII letters, digits, hyphen. -/
def isSlugChar (c : Char) : Bool :=
  c.isLower || c.isDigit || c = '-'

/-- Two entries carry `url` strings, and the strings differ. -/
def urlsDiffer (a b : JVal) : Prop :=
  ∃ u ∈ strField "url" a, ∃ v ∈ strField "url" b, u ≠ v

instance (a b : JVal) : Decidable (urlsDiffer a b) := by
  unfold urlsDiffer; infer_instance

/-! ## Soundness of the comparison -/

mutual

theorem JVal.same_sound : ∀ a b : JVal, JVal.same a b = true → a = b
  | .null, .null, _ => rfl
  | .bool a, .bool b, h => by simp [JVal.same] at h; rw [h]
  | .num a, .num b, h => by simp [JVal.same] at h; rw [h]
  | .str a, .str b, h => by simp [JVal.same] at h; rw [h]
  | .arr a, .arr b, h => by simp [JVal.same] at h; rw [sameItems_sound a b h]
  | .obj a, .obj b, h => by simp [JVal.same] at h; rw [sameMembers_sound a b h]
  | .null, .bool _, h | .null, .num _, h | .null, .str _, h
  | .null, .arr _, h | .null, .obj _, h => by simp [JVal.same] at h
  | .bool _, .null, h | .bool _, .num _, h | .bool _, .str _, h
  | .bool _, .arr _, h | .bool _, .obj _, h => by simp [JVal.same] at h
  | .num _, .null, h | .num _, .bool _, h | .num _, .str _, h
  | .num _, .arr _, h | .num _, .obj _, h => by simp [JVal.same] at h
  | .str _, .null, h | .str _, .bool _, h | .str _, .num _, h
  | .str _, .arr _, h | .str _, .obj _, h => by simp [JVal.same] at h
  | .arr _, .null, h | .arr _, .bool _, h | .arr _, .num _, h
  | .arr _, .str _, h | .arr _, .obj _, h => by simp [JVal.same] at h
  | .obj _, .null, h | .obj _, .bool _, h | .obj _, .num _, h
  | .obj _, .str _, h | .obj _, .arr _, h => by simp [JVal.same] at h

theorem sameItems_sound : ∀ a b : List JVal, sameItems a b = true → a = b
  | [], [], _ => rfl
  | x :: xs, y :: ys, h => by
    simp [sameItems] at h
    rw [JVal.same_sound x y h.1, sameItems_sound xs ys h.2]
  | [], _ :: _, h | _ :: _, [], h => by simp [sameItems] at h

theorem sameMembers_sound :
    ∀ a b : List (String × JVal), sameMembers a b = true → a = b
  | [], [], _ => rfl
  | (j, x) :: xs, (k, y) :: ys, h => by
    simp [sameMembers] at h
    rw [h.1.1, JVal.same_sound x y h.1.2, sameMembers_sound xs ys h.2]
  | [], _ :: _, h | _ :: _, [], h => by simp [sameMembers] at h

end

theorem readsAs_sound (r : Option JVal) (v : JVal) (h : readsAs r v = true) :
    r = some v := by
  cases r with
  | none => simp [readsAs] at h
  | some w => simp only [readsAs] at h; rw [JVal.same_sound w v h]

/-! ## The text and the value agree -/

/-- Line 1 opens with the declaration; the rest of the file is the literal. -/
theorem fileText_eq : fileText = declHead ++ storeText := by decide!

theorem fileLines_length : fileLines.length = 37 := by decide!

/-- The array has six entries. -/
theorem store_length : (elems store).length = 6 := by decide!

/-- Indexing inside the array gives one of its entries. -/
theorem storeAt_mem (i : Nat) (h : i < (elems store).length) :
    storeAt i ∈ elems store := by
  unfold storeAt
  rw [List.getD_eq_getElem _ _ h]
  exact List.getElem_mem h

/-- The `url` strings, in the order of the entries. -/
theorem store_urls :
    (elems store).map (strField "url") =
      [ some "/multiple-language-codegen/"
      , some "/swagger-documentation/"
      , some "/getting-start-with-json-schema/"
      , some "/go-dev-environment-with-vagrant/"
      , some "/go-gin-rest-api/"
      , some "/test-driven-development-in-go/" ] := by decide!

theorem urlsDiffer_symm {a b : JVal} (h : urlsDiffer a b) : urlsDiffer b a := by
  obtain ⟨u, hu, v, hv, huv⟩ := h
  exact ⟨v, hv, u, hu, fun e => huv e.symm⟩

theorem store_urls_pairwise : (elems store).Pairwise urlsDiffer := by decide!

/-! ## The claims -/

/-- Claim C1: any two entries of `store` at different positions carry `url`
strings, and the two strings are different. -/
theorem store_url_unique (i j : Nat) (a b : JVal)
    (ha : (elems store)[i]? = some a) (hb : (elems store)[j]? = some b)
    (hij : i ≠ j) :
    ∃ u ∈ strField "url" a, ∃ v ∈ strField "url" b, u ≠ v := by
  obtain ⟨hi, rfl⟩ := List.getElem?_eq_some.mp ha
  obtain ⟨hj, rfl⟩ := List.getElem?_eq_some.mp hb
  have hp := List.pairwise_iff_getElem.mp store_urls_pairwise
  rcases Nat.lt_or_gt_of_ne hij with h | h
  · exact hp i j hi hj h
  · exact urlsDiffer_symm (hp j i hj hi h)

theorem store_url_unique_witness :
    (elems store)[0]? = some (storeAt 0) ∧ (elems store)[1]? = some (storeAt 1) ∧
      ∃ u ∈ strField "url" (storeAt 0), ∃ v ∈ strField "url" (storeAt 1), u ≠ v :=
  ⟨rfl, rfl, store_url_unique 0 1 (storeAt 0) (storeAt 1) rfl rfl (by decide)⟩

/-- Claim C2: every entry of `store` has a `url` that is a string, and the
string is not empty. -/
theorem store_url_nonempty : ∀ e ∈ elems store, ∃ u ∈ strField "url" e, u ≠ "" := by
  decide!

theorem store_url_nonempty_witness :
    storeAt 0 ∈ elems store ∧ ∃ u ∈ strField "url" (storeAt 0), u ≠ "" :=
  ⟨storeAt_mem 0 (by decide!), store_url_nonempty (storeAt 0) (storeAt_mem 0 (by decide!))⟩

/-- Claim C3: every entry of `store` has a `title` that is a string, and the
string is not empty. -/
theorem store_title_nonempty :
    ∀ e ∈ elems store, ∃ t ∈ strField "title" e, t ≠ "" := by
  decide!

theorem store_title_nonempty_witness :
    storeAt 1 ∈ elems store ∧ ∃ t ∈ strField "title" (storeAt 1), t ≠ "" :=
  ⟨storeAt_mem 1 (by decide!), store_title_nonempty (storeAt 1) (storeAt_mem 1 (by decide!))⟩

/-- Claim C4: every entry of `store` is an object whose field names are
exactly title, excerpt, categories, tags, url and teaser (each once); title,
excerpt and url hold text, categories and tags hold sequences of text, and
teaser holds text or `null`. -/
theorem store_entry_shape :
    ∀ e ∈ elems store,
      isObject e = true ∧ List.Perm (keys e) searchEntryFields ∧
      (∃ v ∈ field "title" e, isText v = true) ∧
      (∃ v ∈ field "excerpt" e, isText v = true) ∧
      (∃ v ∈ field "url" e, isText v = true) ∧
      (∃ v ∈ field "categories" e, isTextSeq v = true) ∧
      (∃ v ∈ field "tags" e, isTextSeq v = true) ∧
      (∃ v ∈ field "teaser" e, isOptText v = true) := by
  decide!

theorem store_entry_shape_witness :
    storeAt 2 ∈ elems store ∧
      isObject (storeAt 2) = true ∧ List.Perm (keys (storeAt 2)) searchEntryFields ∧
      (∃ v ∈ field "title" (storeAt 2), isText v = true) ∧
      (∃ v ∈ field "excerpt" (storeAt 2), isText v = true) ∧
      (∃ v ∈ field "url" (storeAt 2), isText v = true) ∧
      (∃ v ∈ field "categories" (storeAt 2), isTextSeq v = true) ∧
      (∃ v ∈ field "tags" (storeAt 2), isTextSeq v = true) ∧
      (∃ v ∈ field "teaser" (storeAt 2), isOptText v = true) :=
  ⟨storeAt_mem 2 (by decide!), store_entry_shape (storeAt 2) (storeAt_mem 2 (by decide!))⟩

/-- Claim C5: the text bound to `store`, which is the file after the leading
`var store = `, is read by the JSON grammar as an array of six objects; the
array read is the value `store`. -/
theorem storeText_parses :
    fileText = declHead ++ storeText ∧
      ∃ items : List JVal,
        parseJSON storeText = some (.arr items) ∧ items.length = 6 ∧
        (∀ e ∈ items, isObject e = true) ∧ store = .arr items :=
  ⟨fileText_eq, elems store, readsAs_sound _ _ (by decide!), by decide!, by decide!, rfl⟩

/-- Claim C6: every entry of `store` has a `url` string that is a
site-relative path: it begins with `/`, holds no `://`, and does not begin
with `//`. -/
theorem store_url_site_relative :
    ∀ e ∈ elems store, ∃ u ∈ strField "url" e,
      u.toList.head? = some '/' ∧ ¬ "://".toList <:+: u.toList ∧
      ¬ "//".toList <+: u.toList := by
  decide!

theorem store_url_site_relative_witness :
    storeAt 3 ∈ elems store ∧ ∃ u ∈ strField "url" (storeAt 3),
      u.toList.head? = some '/' ∧ ¬ "://".toList <:+: u.toList ∧
      ¬ "//".toList <+: u.toList :=
  ⟨storeAt_mem 3 (by decide!),
    store_url_site_relative (storeAt 3) (storeAt_mem 3 (by decide!))⟩

/-- Claim C7: every entry of `store` has an `excerpt` string that is not
empty and ends with the truncation marker `...`. -/
theorem store_excerpt_truncated :
    ∀ e ∈ elems store, ∃ x ∈ strField "excerpt" e,
      x ≠ "" ∧ "...".toList <:+ x.toList := by
  decide!

theorem store_excerpt_truncated_witness :
    storeAt 4 ∈ elems store ∧ ∃ x ∈ strField "excerpt" (storeAt 4),
      x ≠ "" ∧ "...".toList <:+ x.toList :=
  ⟨storeAt_mem 4 (by decide!),
    store_excerpt_truncated (storeAt 4) (storeAt_mem 4 (by decide!))⟩

/-- Claim C8: every entry of `store` has a `url` string of the form
`/` slug `/`, the slug not empty and made only of lowercase ASCII letters,
digits and hyphens; so the url ends with `/` and holds exactly two `/`. -/
theorem store_url_slug :
    ∀ e ∈ elems store, ∃ u ∈ strField "url" e,
      (∃ slug : String, u = "/" ++ slug ++ "/" ∧ slug ≠ "" ∧
        ∀ c ∈ slug.toList, isSlugChar c = true) ∧
      "/".toList <:+ u.toList ∧ u.toList.count '/' = 2 := by
  intro e he
  have hm : strField "url" e ∈ (elems store).map (strField "url") :=
    List.mem_map_of_mem _ he
  rw [store_urls] at hm
  simp only [List.mem_cons, List.mem_singleton, List.not_mem_nil, or_false] at hm
  rcases hm with h | h | h | h | h | h
  · exact ⟨_, h, ⟨"multiple-language-codegen", by decide!⟩, by decide!⟩
  · exact ⟨_, h, ⟨"swagger-documentation", by decide!⟩, by decide!⟩
  · exact ⟨_, h, ⟨"getting-start-with-json-schema", by decide!⟩, by decide!⟩
  · exact ⟨_, h, ⟨"go-dev-environment-with-vagrant", by decide!⟩, by decide!⟩
  · exact ⟨_, h, ⟨"go-gin-rest-api", by decide!⟩, by decide!⟩
  · exact ⟨_, h, ⟨"test-driven-development-in-go", by decide!⟩, by decide!⟩

theorem store_url_slug_witness :
    storeAt 5 ∈ elems store ∧ ∃ u ∈ strField "url" (storeAt 5),
      (∃ slug : String, u = "/" ++ slug ++ "/" ∧ slug ≠ "" ∧
        ∀ c ∈ slug.toList, isSlugChar c = true) ∧
      "/".toList <:+ u.toList ∧ u.toList.count '/' = 2 :=
  ⟨storeAt_mem 5 (by decide!), store_url_slug (storeAt 5) (storeAt_mem 5 (by decide!))⟩

/-- Claim C9: in every entry of `store`, `categories` is the empty sequence,
`tags` is the empty sequence, and `teaser` is `null`. -/
theorem store_no_classification :
    ∀ e ∈ elems store,
      field "categories" e = some (.arr []) ∧ field "tags" e = some (.arr []) ∧
      field "teaser" e = some .null := by
  have h : ∀ e ∈ elems store,
      readsAs (field "categories" e) (.arr []) = true ∧
      readsAs (field "tags" e) (.arr []) = true ∧
      readsAs (field "teaser" e) .null = true := by decide!
  intro e he
  obtain ⟨hc, ht, hz⟩ := h e he
  exact ⟨readsAs_sound _ _ hc, readsAs_sound _ _ ht, readsAs_sound _ _ hz⟩

theorem store_no_classification_witness :
    storeAt 0 ∈ elems store ∧
      field "categories" (storeAt 0) = some (.arr []) ∧
      field "tags" (storeAt 0) = some (.arr []) ∧
      field "teaser" (storeAt 0) = some .null :=
  ⟨storeAt_mem 0 (by decide!),
    store_no_classification (storeAt 0) (storeAt_mem 0 (by decide!))⟩

end LunrStore
